import Mathlib

/-!
Verification of the register-level encoding logic of the go-pcf8523 RTC
driver (pcf8523.go). Each Go function relevant to the specification is
embedded as a Lean definition; machine integers are modelled as Nat or Int
with explicit wraparound where the Go arithmetic can overflow, and the
float64 arithmetic of AddTimeCorrection is modelled on exact rationals.
-/

set_option maxRecDepth 4000

namespace Pcf8523

/-- Embedding of parseBcd (pcf8523.go lines 114-116):
`(value & 0xF) + (((value >> 4) & 0xF) * 10)` on a byte. -/
def parseBcd (value : Nat) : Nat :=
  (value &&& 0xF) + (((value >>> 4) &&& 0xF) * 10)

/-- Embedding of encodeBcd (pcf8523.go lines 118-120):
`byte((value % 10) | ((value / 10) << 4))` on a Go int. Go `%` and `/`
truncate toward zero (Int.tmod / Int.tdiv), `|` and `<<` act on the
two's-complement representation, and the `byte` conversion keeps the low
8 bits (emod 256). -/
def encodeBcd (value : Int) : Nat :=
  ((Int.lor (value.tmod 10) ((value.tdiv 10) <<< (4 : Int))).emod 256).toNat

/-- Conversion of a byte to a Go int8 (two's complement). -/
def int8OfByte (b : Nat) : Int :=
  if b < 128 then (b : Int) else (b : Int) - 256

/-- Embedding of the sign-extension step of getCorrection (pcf8523.go lines
63-76) applied to the byte read from register 0x0E: if bit 6 is set the high
bit is forced set, otherwise it is forced clear, and the byte is then
reinterpreted as an int8. -/
def getCorrectionValue (c : Nat) : Int :=
  if c &&& 0x40 ≠ 0 then int8OfByte (c ||| 0x80) else int8OfByte (c &&& 0x7F)

/-- Wraparound of Go int8 arithmetic (two's complement, 8 bits). -/
def int8Wrap (x : Int) : Int :=
  (x + 128).emod 256 - 128

/-- Embedding of the integer part of AddTimeCorrection (pcf8523.go lines
96-103): `new_correction := int8(current_correction) + offset` (int8
addition, which wraps), then `if new_correction > 63 { 63 }`, then
`if new_correction < -64 { -64 }`, and the byte written to register 0x0E is
`byte(new_correction) & 0x7F`. -/
def addTimeCorrectionStored (current_correction offset : Int) : Nat :=
  let n1 := int8Wrap (current_correction + offset)
  let n2 := if n1 > 63 then 63 else n1
  let n3 := if n2 < -64 then -64 else n2
  (n3.emod 256).toNat &&& 0x7F

/-- Go conversion of a float to an integer type discards the fraction
(truncation toward zero); modelled on exact rationals. -/
def goTruncToInt (q : ℚ) : Int :=
  if 0 ≤ q then Int.floor q else Int.ceil q

/-- Embedding of pcf8523.go line 91, `offset := int8(secondsPerDay * 11.57407 / 4.34)`,
with the float64 arithmetic modelled as exact rational arithmetic (the
inputs of interest are far from the truncation boundaries, so the model
agrees with float64 there). -/
def correctionOffsetLsb (secondsPerDay : ℚ) : Int :=
  goTruncToInt (secondsPerDay * (1157407 / 100000) / (434 / 100))

/-- Modelled from the spec: the spec says AddTimeCorrection converts
secondsPerDay to LSBs via `round(secondsPerDay * 11.57407 / 4.34)`
(round to nearest). Stated separately so it can be compared with the
source-derived `correctionOffsetLsb`. -/
def specCorrectionOffsetLsb (secondsPerDay : ℚ) : Int :=
  round (secondsPerDay * (1157407 / 100000) / (434 / 100))

-- Helper: BCD round-trip on naturals, by exhaustive check.
theorem bcd_roundtrip_nat : ∀ n : Nat, n ≤ 99 → parseBcd (encodeBcd (n : Int)) = n := by
  decide

-- Helper: BCD round-trip lifted to integers in [0, 99].
theorem bcd_roundtrip_int (z : Int) (h0 : 0 ≤ z) (h1 : z ≤ 99) :
    (parseBcd (encodeBcd z) : Int) = z := by
  lift z to Nat using h0 with n
  have h99 : n ≤ 99 := by exact_mod_cast h1
  exact_mod_cast congrArg (Nat.cast : Nat → Int) (bcd_roundtrip_nat n h99)

/-- Claim C5: for every integer d in [0, 99], decoding the BCD encoding of d
gives back d: parseBcd (encodeBcd d) = d. -/
theorem bcd_roundtrip (d : Int) (h0 : 0 ≤ d) (h1 : d ≤ 99) :
    (parseBcd (encodeBcd d) : Int) = d :=
  bcd_roundtrip_int d h0 h1

/-- Witness for C5 at d = 42. -/
theorem bcd_roundtrip_witness : (parseBcd (encodeBcd 42) : Int) = 42 :=
  bcd_roundtrip 42 (by decide) (by decide)

/-- Claim C7: for every raw byte read from register 0x0E, getCorrection
sign-extends bit 6 into bit 7: bytes with bit 6 set decode to [-64, -1],
bytes with bit 6 clear decode to [0, 63]. -/
theorem getCorrection_sign_extension : ∀ c : Nat, c < 256 →
    (c &&& 0x40 ≠ 0 → -64 ≤ getCorrectionValue c ∧ getCorrectionValue c ≤ -1) ∧
    (c &&& 0x40 = 0 → 0 ≤ getCorrectionValue c ∧ getCorrectionValue c ≤ 63) := by
  decide

/-- Witness for C7 at c = 0x45 (bit 6 set): the decoded correction is -59. -/
theorem getCorrection_sign_extension_witness :
    -64 ≤ getCorrectionValue 0x45 ∧ getCorrectionValue 0x45 ≤ -1 :=
  (getCorrection_sign_extension 0x45 (by decide)).1 (by decide)

/-- Claim C2 (code bug): with the stored correction byte 0x3F (decoding to 63)
and delta offset 100 LSB (reachable from secondsPerDay = 37.5), the int8 sum
wraps to -93 before the clamp, so the driver stores byte 0x40 (which decodes
to -64), whereas the clamped mathematical sum 63 + 100 is 63 (byte 0x3F). -/
theorem addTimeCorrection_wraps_before_clamp :
    getCorrectionValue 0x3F = 63 ∧
    addTimeCorrectionStored (getCorrectionValue 0x3F) 100 = 0x40 ∧
    getCorrectionValue 0x40 = -64 ∧
    min 63 (max (-64) ((63 : Int) + 100)) = 63 := by
  decide

/-- Claim C4 (code bug): at secondsPerDay = 1, the product 11.57407 / 4.34 is
about 2.6668; the Go conversion truncates it to 2, while the rounding the
spec (and the doc comment of AddTimeCorrection, which promises the nearest
0.375 seconds/day step) describes gives 3. -/
theorem addTimeCorrection_truncates_not_rounds :
    correctionOffsetLsb 1 = 2 ∧ specCorrectionOffsetLsb 1 = 3 := by
  constructor
  · rw [correctionOffsetLsb, goTruncToInt, if_pos (by norm_num)]
    rw [Int.floor_eq_iff]
    norm_num
  · rw [specCorrectionOffsetLsb, round_eq]
    rw [Int.floor_eq_iff]
    norm_num

/-- Arguments the driver passes to the Go time.Date constructor in GetTime
(pcf8523.go lines 132-141); the location is always UTC. -/
structure TimeArgs where
  year : Int
  month : Int
  day : Int
  hour : Int
  minute : Int
  second : Int
  nsec : Int
deriving DecidableEq, Repr

/-- Embedding of the decode step of GetTime (pcf8523.go lines 132-141),
applied to the 7-byte block r read from register 0x03: year is
2000 + parseBcd r[6], month parseBcd r[5], day parseBcd r[3], hour
parseBcd r[2], minute parseBcd r[1], second parseBcd r[0] & 0x7F (the mask
is applied to the decoded value, after parseBcd), nanoseconds 0. -/
def getTimeArgs (r : List Nat) : TimeArgs :=
  { year := 2000 + (parseBcd (r.getD 6 0) : Int)
    month := (parseBcd (r.getD 5 0) : Int)
    day := (parseBcd (r.getD 3 0) : Int)
    hour := (parseBcd (r.getD 2 0) : Int)
    minute := (parseBcd (r.getD 1 0) : Int)
    second := ((parseBcd (r.getD 0 0) &&& 0x7F : Nat) : Int)
    nsec := 0 }

/-- Field view of a Go time.Time already normalized to UTC with whole-second
precision: the values returned by Second, Minute, Hour, Day, Weekday, Month
and Year, as Go ints. -/
structure GoDateTime where
  year : Int
  month : Int
  day : Int
  hour : Int
  minute : Int
  second : Int
  weekday : Int
deriving DecidableEq, Repr

/-- Embedding of the 8-byte write transaction built by SetTime (pcf8523.go
lines 152-161): register address 0x03 followed by the BCD encodings of
second, minute, hour, day, weekday, month and year - 2000. -/
def setTimeBytes (d : GoDateTime) : List Nat :=
  [0x03, encodeBcd d.second, encodeBcd d.minute, encodeBcd d.hour,
   encodeBcd d.day, encodeBcd d.weekday, encodeBcd d.month,
   encodeBcd (d.year - 2000)]

/-- Embedding of SetTime (pcf8523.go lines 148-168): it builds the write
block, issues exactly one bus transaction with it, and returns that
transaction's error (modelled as Option Nat: some tag is a transport
failure, none is success). The pair returned is (error, writes issued). -/
def setTime (d : GoDateTime) (tx : List Nat → Option Nat) :
    Option Nat × List (List Nat) :=
  let w := setTimeBytes d
  (tx w, [w])

/-- Claim C1 (code bug): with seconds byte 0x80 (OS flag set, seconds = 00
BCD), GetTime passes 80 as the seconds argument, because it masks the high
bit only after BCD-decoding (parseBcd 0x80 = 80 and 80 & 0x7F = 80), whereas
masking the byte before decoding gives parseBcd (0x80 & 0x7F) = 0. -/
theorem getTime_seconds_mask_after_decode :
    (getTimeArgs [0x80, 0x00, 0x00, 0x01, 0x05, 0x01, 0x24]).second = 80 ∧
    parseBcd (0x80 &&& 0x7F) = 0 := by
  decide

-- Helper: masking a byte below 128 with 0x7F is the identity.
theorem and127_of_le (n : Nat) (h : n ≤ 127) : n &&& 127 = n := by
  revert h
  revert n
  decide

-- Helper: a BCD round-trip through the Int-typed encoder lands on the
-- toNat of the input and is bounded by it.
theorem bcd_roundtrip_toNat (z : Int) (h0 : 0 ≤ z) (h1 : z ≤ 99) :
    parseBcd (encodeBcd z) = z.toNat := by
  have h := bcd_roundtrip_int z h0 h1
  omega

/-- Claim C8: for every calendar time with whole-second precision and year in
[2000, 2099], writing it with SetTime and reading the echoed bytes back with
GetTime reproduces exactly the original field values (and a zero sub-second
component): the transport echo makes the 7 bytes GetTime decodes be the 7
data bytes SetTime wrote. -/
theorem setTime_getTime_roundtrip (d : GoDateTime)
    (hs : 0 ≤ d.second ∧ d.second ≤ 59)
    (hmi : 0 ≤ d.minute ∧ d.minute ≤ 59)
    (hh : 0 ≤ d.hour ∧ d.hour ≤ 23)
    (hd : 1 ≤ d.day ∧ d.day ≤ 31)
    (hmo : 1 ≤ d.month ∧ d.month ≤ 12)
    (hy : 2000 ≤ d.year ∧ d.year ≤ 2099) :
    getTimeArgs ((setTimeBytes d).drop 1) =
      ⟨d.year, d.month, d.day, d.hour, d.minute, d.second, 0⟩ := by
  have hsec := bcd_roundtrip_toNat d.second hs.1 (by omega)
  have hsec' : parseBcd (encodeBcd d.second) &&& 127 = d.second.toNat := by
    rw [hsec]
    exact and127_of_le _ (by omega)
  have hmin := bcd_roundtrip_int d.minute hmi.1 (by omega)
  have hhour := bcd_roundtrip_int d.hour hh.1 (by omega)
  have hday := bcd_roundtrip_int d.day (by omega) (by omega)
  have hmon := bcd_roundtrip_int d.month (by omega) (by omega)
  have hyear := bcd_roundtrip_int (d.year - 2000) (by omega) (by omega)
  simp only [setTimeBytes, List.drop, getTimeArgs, List.getD, List.get?, Option.getD_some]
  refine TimeArgs.mk.injEq .. ▸ ⟨?_, ?_, ?_, ?_, ?_, ?_, rfl⟩
  · rw [hyear]; omega
  · exact hmon
  · exact hday
  · exact hhour
  · exact hmin
  · rw [hsec']; omega

/-- Witness for C8 at 2024-05-17 13:37:42 UTC (weekday 5). -/
theorem setTime_getTime_roundtrip_witness :
    getTimeArgs ((setTimeBytes ⟨2024, 5, 17, 13, 37, 42, 5⟩).drop 1) =
      ⟨2024, 5, 17, 13, 37, 42, 0⟩ :=
  setTime_getTime_roundtrip ⟨2024, 5, 17, 13, 37, 42, 5⟩
    (by norm_num) (by norm_num) (by norm_num) (by norm_num) (by norm_num) (by norm_num)

/-- Claim C10: SetTime validates nothing: for every input time (any year,
in particular outside [2000, 2099]) it issues exactly one write transaction
whose last byte is encodeBcd (year - 2000), and it returns an error exactly
when that transaction fails. -/
theorem setTime_no_validation (d : GoDateTime) (tx : List Nat → Option Nat) :
    ((setTime d tx).1 = none ↔ tx (setTimeBytes d) = none) ∧
    (setTime d tx).2 = [setTimeBytes d] ∧
    (setTimeBytes d).getD 7 0 = encodeBcd (d.year - 2000) := by
  refine ⟨Iff.rfl, rfl, ?_⟩
  simp [setTimeBytes, List.getD]

/-- Bus operations issued by the driver, as seen by the transport: one
combined write-then-read transaction (write bytes, number of bytes to read
back), or a close of the bus handle. ReadReg a is tx [a] 1, WriteReg a v is
tx [a, v] 0, and the Close method (pcf8523.go lines 16-18) is closeBus. -/
inductive BusOp where
  | tx (w : List Nat) (readLen : Nat)
  | closeBus
deriving DecidableEq, Repr

/-- Error values NewPcf8523 can return: a transport failure propagated from
a Tx call (tagged so distinct failures are distinguishable), or the
oscillator-stopped error it constructs itself. -/
inductive GoError where
  | transport (tag : Nat)
  | oscillatorStopped
deriving DecidableEq, Repr

/-- Result of a read transaction: the byte read, or a tagged transport
failure. -/
inductive TxResult where
  | ok (b : Nat)
  | fail (tag : Nat)
deriving DecidableEq, Repr

/-- Transport behaviour during NewPcf8523 after the bus itself opened: the
result of the first ReadReg 0x03, of the corrective WriteReg 0x03 (none is
success, some tag a failure), and of the re-read of 0x03. -/
structure OpenBus where
  read1 : TxResult
  write1 : Option Nat
  read2 : TxResult
deriving DecidableEq, Repr

/-- Outcome of NewPcf8523: whether the returned struct is the constructed
device (true) or the zero value (false), the returned error, and the bus
operations issued. -/
structure OpenOutcome where
  handleValid : Bool
  err : Option GoError
  trace : List BusOp
deriving DecidableEq, Repr

/-- Embedding of NewPcf8523 (pcf8523.go lines 174-205) after a successful
bus open. It reads register 0x03; on error it returns the zero value and
that error. If bit 7 is set it writes back seconds & 0x7F; if that write
fails the source returns the variable err, which still holds nil from the
successful read, so the outcome is the zero value with no error. It then
re-reads 0x03, propagating a read error, and returns the
oscillator-stopped error if bit 7 is still set. No path issues a close. -/
def newPcf8523 (bus : OpenBus) : OpenOutcome :=
  match bus.read1 with
  | .fail tag => ⟨false, some (.transport tag), [.tx [0x03] 1]⟩
  | .ok seconds_reg =>
    if seconds_reg &&& 0x80 ≠ 0 then
      match bus.write1 with
      | some _tag =>
        ⟨false, none, [.tx [0x03] 1, .tx [0x03, seconds_reg &&& 0x7F] 0]⟩
      | none =>
        match bus.read2 with
        | .fail tag =>
          ⟨false, some (.transport tag),
            [.tx [0x03] 1, .tx [0x03, seconds_reg &&& 0x7F] 0, .tx [0x03] 1]⟩
        | .ok s2 =>
          if s2 &&& 0x80 ≠ 0 then
            ⟨false, some .oscillatorStopped,
              [.tx [0x03] 1, .tx [0x03, seconds_reg &&& 0x7F] 0, .tx [0x03] 1]⟩
          else
            ⟨true, none,
              [.tx [0x03] 1, .tx [0x03, seconds_reg &&& 0x7F] 0, .tx [0x03] 1]⟩
    else
      ⟨true, none, [.tx [0x03] 1]⟩

/-- Claim C3 (code bug): when the initial read of register 0x03 succeeds
with 0x80 (OS flag set) and the corrective write fails with a transport
error, NewPcf8523 returns no error at all (the stale nil err from the
successful read) together with the zero-value handle, instead of returning
the transport failure. -/
theorem newPcf8523_write_failure_returns_nil_error :
    (newPcf8523 ⟨TxResult.ok 0x80, some 5, TxResult.ok 0x00⟩).err = none ∧
    (newPcf8523 ⟨TxResult.ok 0x80, some 5, TxResult.ok 0x00⟩).handleValid = false := by
  decide

/-- Counterexample to claim C9: when the first read of register 0x03 fails,
NewPcf8523 returns the transport error but its trace contains no close of
the bus handle, so the bus is not released before the failing return. -/
theorem newPcf8523_no_close_on_failure_cex :
    (newPcf8523 ⟨TxResult.fail 7, none, TxResult.ok 0x00⟩).err = some (.transport 7) ∧
    BusOp.closeBus ∉ (newPcf8523 ⟨TxResult.fail 7, none, TxResult.ok 0x00⟩).trace := by
  decide

/-- Claim C9 as amended: on every path (in particular every failing path
after the bus was opened), NewPcf8523 never issues a close of the bus
handle; the bus is left open when an error is returned. -/
theorem newPcf8523_never_closes_bus (bus : OpenBus) :
    BusOp.closeBus ∉ (newPcf8523 bus).trace := by
  rcases bus with ⟨r1, w1, r2⟩
  rcases r1 with s1 | t1
  all_goals rcases w1 with _ | t
  all_goals rcases r2 with s2 | t2
  all_goals simp only [newPcf8523]
  all_goals first
    | (split_ifs <;> simp)
    | simp

/-- Embedding of ConfigurePowerManagement (pcf8523.go lines 40-55): builds
the 3-bit value (bit0 set for directSwitchingMode, bit1 set when switchover
is disabled, bit2 set when batteryLowDetection is disabled); if it equals
0x6 the function returns the invalid-configuration error before any bus
access (none), otherwise it performs the single write of that value to
register 0x02 (some (register, value)). -/
def configurePowerManagement (switchover directSwitchingMode batteryLowDetection : Bool) :
    Option (Nat × Nat) :=
  let v0 := 0
  let v1 := if directSwitchingMode then v0 ||| 0x1 else v0
  let v2 := if !switchover then v1 ||| 0x2 else v1
  let v3 := if !batteryLowDetection then v2 ||| 0x4 else v2
  if v3 = 0x6 then none else some (0x02, v3)

/-- Claim C6: for every triple of booleans, the built byte has bit0 =
directSwitchingMode, bit1 = NOT switchover, bit2 = NOT batteryLowDetection
and no other bits (it is below 8); ConfigurePowerManagement fails without
any bus write exactly when that byte is 0b110, and otherwise issues exactly
the full overwrite of register 0x02 with that byte. -/
theorem configurePowerManagement_spec (s d b : Bool) :
    ((if d then 1 else 0) + (if s then 0 else 2) + (if b then 0 else 4) < 8) ∧
    Nat.testBit ((if d then 1 else 0) + (if s then 0 else 2) + (if b then 0 else 4)) 0 = d ∧
    Nat.testBit ((if d then 1 else 0) + (if s then 0 else 2) + (if b then 0 else 4)) 1 = !s ∧
    Nat.testBit ((if d then 1 else 0) + (if s then 0 else 2) + (if b then 0 else 4)) 2 = !b ∧
    configurePowerManagement s d b =
      (if (if d then 1 else 0) + (if s then 0 else 2) + (if b then 0 else 4) = 6 then none
       else some (0x02, (if d then 1 else 0) + (if s then 0 else 2) + (if b then 0 else 4))) := by
  cases s <;> cases d <;> cases b <;> decide

end Pcf8523
